import Mathlib

/-!
Verification of the bug-reporter server core: authentication
(password hashing, token issuance/verification, revocation/logout)
and the report lifecycle (updateReport, list queries, bulk operations),
shallowly embedded from `src/server/src/handlers/auth.ts` and
`src/server/src/handlers/report_comments.ts`.

Strings are modelled as `List Char`; JavaScript `Date` values and unix
timestamps as `Nat` (seconds); the SHA-256 digest functions as explicit
function parameters (the digest itself is abstract cryptography, but every
structural use of it is embedded exactly as in the source).
-/

deriving instance DecidableEq for Except

namespace BR

/-- Strings of the embedded program, as lists of characters. -/
abbrev Str := List Char

/-- Coerce a Lean string literal to the `Str` representation. -/
def str (s : String) : Str := s.toList

/-- JavaScript `String.prototype.split` with a single-character separator
(as used for token `'.'` splitting and stored-hash `':'` splitting). -/
def splitOn (sep : Char) : Str → List Str
  | [] => [[]]
  | c :: rest =>
    if c = sep then [] :: splitOn sep rest
    else
      match splitOn sep rest with
      | [] => [[c]]
      | s :: ss => (c :: s) :: ss

/-- Strip an expected literal lead-in from a string (used to model parsing
the fixed JSON object skeleton that `JSON.stringify` produced). -/
def stripLead : Str → Str → Option Str
  | [], s => some s
  | _ :: _, [] => none
  | p :: ps, c :: cs => if p = c then stripLead ps cs else none

/-- Lowercase hex digit, as produced by `JSON.stringify` control escapes. -/
def hexDig (n : Nat) : Char := (str "0123456789abcdef").getD n '0'

/-- Hex digit value, for reading a `\u00XX` escape back. -/
def hexVal (c : Char) : Option Nat :=
  let n := c.toNat
  if 48 ≤ n ∧ n ≤ 57 then some (n - 48)
  else if 97 ≤ n ∧ n ≤ 102 then some (n - 87)
  else if 65 ≤ n ∧ n ≤ 70 then some (n - 55)
  else none

/-- Model of `JSON.stringify` escaping of one character inside a JSON string:
quote and backslash escaped, control characters as `\b \t \n \f \r` or
`\u00XX`, everything else verbatim. -/
def escChar (c : Char) : Str :=
  if c = '"' then ['\\', '"']
  else if c = '\\' then ['\\', '\\']
  else if c = Char.ofNat 8 then ['\\', 'b']
  else if c = Char.ofNat 9 then ['\\', 't']
  else if c = Char.ofNat 10 then ['\\', 'n']
  else if c = Char.ofNat 12 then ['\\', 'f']
  else if c = Char.ofNat 13 then ['\\', 'r']
  else if c.toNat < 32 then ['\\', 'u', '0', '0', hexDig (c.toNat / 16), hexDig (c.toNat % 16)]
  else [c]

/-- Model of `JSON.stringify` escaping of a whole string body. -/
def escape : Str → Str
  | [] => []
  | c :: s => escChar c ++ escape s

private def consParse (c : Char) (o : Option (Str × Str)) : Option (Str × Str) :=
  o.map (fun p => (c :: p.1, p.2))

/-- Read a JSON string body up to and including its closing quote,
undoing the escapes `JSON.stringify` emits; returns the decoded body and
the remainder after the closing quote. -/
def parseJString : Str → Option (Str × Str)
  | [] => none
  | c :: rest =>
    if c = '"' then some ([], rest)
    else if c = '\\' then
      match rest with
      | [] => none
      | e :: rest2 =>
        if e = '"' then consParse '"' (parseJString rest2)
        else if e = '\\' then consParse '\\' (parseJString rest2)
        else if e = 'b' then consParse (Char.ofNat 8) (parseJString rest2)
        else if e = 't' then consParse (Char.ofNat 9) (parseJString rest2)
        else if e = 'n' then consParse (Char.ofNat 10) (parseJString rest2)
        else if e = 'f' then consParse (Char.ofNat 12) (parseJString rest2)
        else if e = 'r' then consParse (Char.ofNat 13) (parseJString rest2)
        else if e = 'u' then
          match rest2 with
          | h1 :: h2 :: h3 :: h4 :: rest3 =>
            match hexVal h1, hexVal h2, hexVal h3, hexVal h4 with
            | some a, some b, some v, some d =>
              consParse (Char.ofNat (((a * 16 + b) * 16 + v) * 16 + d)) (parseJString rest3)
            | _, _, _, _ => none
          | _ => none
        else none
    else consParse c (parseJString rest)
termination_by structural s => s

/-- Decimal digit emission with explicit fuel (structural recursion so the
kernel can evaluate it; the fuel is always sufficient below). -/
def natDigitsAux : Nat → Nat → Str
  | 0, _ => []
  | fuel + 1, n =>
    if n < 10 then [hexDig n]
    else natDigitsAux fuel (n / 10) ++ [hexDig (n % 10)]

/-- Decimal digits of a natural number, most significant first — the way
JavaScript stringifies the integer fields of the token payload. -/
def natDigits (n : Nat) : Str := natDigitsAux (n + 1) n

/-- Is a decimal digit character. -/
def isDigitCh (c : Char) : Bool := 48 ≤ c.toNat && c.toNat ≤ 57

/-- Accumulate the value of a digit string. -/
def digitsVal : Str → Nat → Nat
  | [], acc => acc
  | c :: cs, acc => digitsVal cs (acc * 10 + (c.toNat - 48))

/-- Read a decimal number: take the leading digit run; fail on none. -/
def parseNum (s : Str) : Option (Nat × Str) :=
  match s.takeWhile isDigitCh with
  | [] => none
  | ds => some (digitsVal ds 0, s.dropWhile isDigitCh)

/-- UTF-8 encoding of one character (what `Buffer.from(string)` does
per code point). Bytes are `Nat`s below 256. -/
def utf8EncodeChar (c : Char) : List Nat :=
  let n := c.toNat
  if n < 128 then [n]
  else if n < 2048 then [192 + n / 64, 128 + n % 64]
  else if n < 65536 then [224 + n / 4096, 128 + (n / 64) % 64, 128 + n % 64]
  else [240 + n / 262144, 128 + (n / 4096) % 64, 128 + (n / 64) % 64, 128 + n % 64]

/-- UTF-8 encoding of a string. -/
def utf8Encode : Str → List Nat
  | [] => []
  | c :: s => utf8EncodeChar c ++ utf8Encode s

/-- UTF-8 decoding (what `buffer.toString()` does on well-formed input). -/
def utf8Decode : List Nat → Option Str
  | [] => some []
  | b :: bs =>
    if b < 128 then (utf8Decode bs).map (Char.ofNat b :: ·)
    else if b < 192 then none
    else
      match bs with
      | [] => none
      | b1 :: bs1 =>
        if ¬ (128 ≤ b1 ∧ b1 < 192) then none
        else if b < 224 then
          (utf8Decode bs1).map (Char.ofNat ((b - 192) * 64 + (b1 - 128)) :: ·)
        else
          match bs1 with
          | [] => none
          | b2 :: bs2 =>
            if ¬ (128 ≤ b2 ∧ b2 < 192) then none
            else if b < 240 then
              (utf8Decode bs2).map
                (Char.ofNat (((b - 224) * 64 + (b1 - 128)) * 64 + (b2 - 128)) :: ·)
            else
              match bs2 with
              | [] => none
              | b3 :: bs3 =>
                if ¬ (128 ≤ b3 ∧ b3 < 192) then none
                else if b < 248 then
                  (utf8Decode bs3).map
                    (Char.ofNat ((((b - 240) * 64 + (b1 - 128)) * 64 + (b2 - 128)) * 64 +
                      (b3 - 128)) :: ·)
                else none
termination_by structural bs => bs

/-- The base64url alphabet (RFC 4648 §5), used by Node's `'base64url'`
buffer encoding. -/
def b64Alphabet : Str :=
  str "ABCDEFGHIJKLMNOPQRSTUVWXYZabcdefghijklmnopqrstuvwxyz0123456789-_"

/-- Character for a sextet value. -/
def b64EncChar (n : Nat) : Char := b64Alphabet.getD n 'A'

/-- Sextet value of an alphabet character. -/
def b64DecChar (c : Char) : Option Nat :=
  let n := c.toNat
  if 65 ≤ n ∧ n ≤ 90 then some (n - 65)
  else if 97 ≤ n ∧ n ≤ 122 then some (n - 71)
  else if 48 ≤ n ∧ n ≤ 57 then some (n + 4)
  else if n = 45 then some 62
  else if n = 95 then some 63
  else none

/-- base64url encoding without padding, as produced by
`buffer.toString('base64url')`. -/
def b64Encode : List Nat → Str
  | a :: b :: c :: rest =>
    b64EncChar (a / 4) :: b64EncChar (a % 4 * 16 + b / 16) ::
      b64EncChar (b % 16 * 4 + c / 64) :: b64EncChar (c % 64) :: b64Encode rest
  | [a, b] => [b64EncChar (a / 4), b64EncChar (a % 4 * 16 + b / 16), b64EncChar (b % 16 * 4)]
  | [a] => [b64EncChar (a / 4), b64EncChar (a % 4 * 16)]
  | [] => []

/-- base64url decoding on well-formed input, as performed by
`Buffer.from(s, 'base64url')`. -/
def b64Decode : Str → Option (List Nat)
  | c1 :: c2 :: c3 :: c4 :: rest =>
    match b64DecChar c1, b64DecChar c2, b64DecChar c3, b64DecChar c4 with
    | some s1, some s2, some s3, some s4 =>
      (b64Decode rest).map
        (fun bs => (s1 * 4 + s2 / 16) :: (s2 % 16 * 16 + s3 / 4) :: (s3 % 4 * 64 + s4) :: bs)
    | _, _, _, _ => none
  | [c1, c2, c3] =>
    match b64DecChar c1, b64DecChar c2, b64DecChar c3 with
    | some s1, some s2, some s3 => some [s1 * 4 + s2 / 16, s2 % 16 * 16 + s3 / 4]
    | _, _, _ => none
  | [c1, c2] =>
    match b64DecChar c1, b64DecChar c2 with
    | some s1, some s2 => some [s1 * 4 + s2 / 16]
    | _, _ => none
  | [_] => none
  | [] => some []
termination_by structural s => s

/-- Model of `Buffer.from(s).toString('base64url')`: UTF-8 then base64url. -/
def b64s (s : Str) : Str := b64Encode (utf8Encode s)

/-- Model of `Buffer.from(p, 'base64url').toString()`: base64url decode then UTF-8
decode. -/
def b64sDecode (p : Str) : Option Str := (b64Decode p).bind utf8Decode

/-- The claims object passed to `generateToken` and returned by
`verifyToken` in `auth.ts`: `{ userId, username, role }`. -/
structure TokenClaims where
  userId : Nat
  username : Str
  role : Str
deriving DecidableEq, Repr

/-- The decoded token payload: claims plus `iat` and `exp` (unix seconds). -/
structure PayloadObj where
  userId : Nat
  username : Str
  role : Str
  iat : Nat
  exp : Nat
deriving DecidableEq, Repr

/-- Model of `JSON.stringify({ alg: 'HS256', typ: 'JWT' })` from `generateToken`. -/
def headerJson : Str := str "\x7b\"alg\":\"HS256\",\"typ\":\"JWT\"\x7d"

/-- Model of `JSON.stringify(tokenPayload)` where
`tokenPayload = { ...payload, iat: now, exp: now + 24*60*60 }` — JavaScript
object keys serialize in insertion order `userId, username, role, iat, exp`. -/
def payloadJson (c : TokenClaims) (now : Nat) : Str :=
  str "\x7b\"userId\":" ++ (natDigits c.userId ++
    (str ",\"username\":\"" ++ (escape c.username ++
      ('"' :: (str ",\"role\":\"" ++ (escape c.role ++
        ('"' :: (str ",\"iat\":" ++ (natDigits now ++
          (str ",\"exp\":" ++ (natDigits (now + 86400) ++ [Char.ofNat 125])))))))))))

/-- Model of `JSON.parse` of a token payload, specialized to the exact object shape
`generateToken` emits (the only shape relevant to the verified claims);
any other input is modelled as a parse failure. -/
def parsePayload (s : Str) : Option PayloadObj :=
  (stripLead (str "\x7b\"userId\":") s).bind fun s1 =>
  (parseNum s1).bind fun p1 =>
  (stripLead (str ",\"username\":\"") p1.2).bind fun s2 =>
  (parseJString s2).bind fun p2 =>
  (stripLead (str ",\"role\":\"") p2.2).bind fun s3 =>
  (parseJString s3).bind fun p3 =>
  (stripLead (str ",\"iat\":") p3.2).bind fun s4 =>
  (parseNum s4).bind fun p4 =>
  (stripLead (str ",\"exp\":") p4.2).bind fun s5 =>
  (parseNum s5).bind fun p5 =>
  (stripLead (str "\x7d") p5.2).bind fun s6 =>
  if s6 = [] then some ⟨p1.1, p2.1, p3.1, p4.1, p5.1⟩ else none

/-- Model of `generateToken` from `auth.ts`: base64url header and payload segments
plus a signature, joined by dots.  `sha` models
`s => createHash('sha256').update(s).digest('base64url')` (the digest is
the one construct abstracted as a parameter), `secret` models
`JWT_SECRET`, and `now` models `Math.floor(Date.now() / 1000)`. -/
def generateToken (sha : Str → Str) (secret : Str) (now : Nat) (c : TokenClaims) : Str :=
  let headerB64 := b64s headerJson
  let payloadB64 := b64s (payloadJson c now)
  headerB64 ++ '.' ::
    (payloadB64 ++ '.' :: sha (headerB64 ++ '.' :: (payloadB64 ++ '.' :: secret)))

/-- Model of `verifyToken` from `auth.ts`, failing with the same `Error` messages the
source throws.  A `JSON.parse` exception on a decoded payload (only
reachable for tokens not produced by `generateToken`) is modelled as the
error string "SyntaxError". -/
def verifyToken (sha : Str → Str) (secret : Str) (now : Nat) (token : Str) :
    Except Str TokenClaims :=
  match splitOn '.' token with
  | [headerB64, payloadB64, signature] =>
    let expectedSignature := sha (headerB64 ++ '.' :: (payloadB64 ++ '.' :: secret))
    if signature ≠ expectedSignature then .error (str "Invalid token signature")
    else
      match b64sDecode payloadB64 with
      | none => .error (str "SyntaxError")
      | some payloadStr =>
        match parsePayload payloadStr with
        | none => .error (str "SyntaxError")
        | some payload =>
          if payload.exp < now then .error (str "Token expired")
          else .ok ⟨payload.userId, payload.username, payload.role⟩
  | _ => .error (str "Invalid token format")

/-- First segment of every generated token. -/
def tokenHeader : Str := b64s headerJson

/-- Payload segment of the token generated for claims `c` at time `now`. -/
def tokenPayloadSeg (c : TokenClaims) (now : Nat) : Str := b64s (payloadJson c now)

/-- Signature segment of the token generated for claims `c` at time `now`. -/
def tokenSig (sha : Str → Str) (secret : Str) (c : TokenClaims) (now : Nat) : Str :=
  sha (tokenHeader ++ '.' :: (tokenPayloadSeg c now ++ '.' :: secret))

/-- A row of the `users` table (`usersTable` in the schema). -/
structure User where
  id : Nat
  username : Str
  full_name : Str
  email : Str
  password_hash : Str
  role : Str
  avatar_url : Option Str
  is_active : Bool
  last_login : Option Nat
  created_at : Nat
  updated_at : Nat
deriving DecidableEq, Repr

/-- A user row with the password hash stripped, as returned to callers. -/
structure UserPublic where
  id : Nat
  username : Str
  full_name : Str
  email : Str
  role : Str
  avatar_url : Option Str
  is_active : Bool
  last_login : Option Nat
  created_at : Nat
  updated_at : Nat
deriving DecidableEq, Repr

/-- Model of `const (password_hash, ...userWithoutPassword) = user` destructuring. -/
def stripPassword (u : User) : UserPublic :=
  ⟨u.id, u.username, u.full_name, u.email, u.role, u.avatar_url, u.is_active,
    u.last_login, u.created_at, u.updated_at⟩

/-- Model of `hashPassword` from `auth.ts`: `salt + ':' + sha256hex(password + salt)`.
The random 16-byte hex salt is passed explicitly; `shaHex` models
`s => createHash('sha256').update(s).digest('hex')`. -/
def hashPassword (shaHex : Str → Str) (salt : Str) (password : Str) : Str :=
  salt ++ ':' :: shaHex (password ++ salt)

/-- Model of `verifyPassword` from `auth.ts`: split the stored value on ':' into salt
and digest (`const (salt, hash) = hashedPassword.split(':')` takes the first
two parts; a missing digest part compares unequal, yielding false) and
compare the recomputed digest. -/
def verifyPassword (shaHex : Str → Str) (password stored : Str) : Bool :=
  match splitOn ':' stored with
  | salt :: hash :: _ => hash == shaHex (password ++ salt)
  | _ => false

/-- Model of `login`'s success payload: the user without password hash, plus token. -/
structure AuthResponse where
  user : UserPublic
  token : Str
deriving DecidableEq, Repr

/-- Model of `login` from `auth.ts` over an explicit user table: find by username,
check `is_active`, verify the password, write `last_login = now`, issue a
token.  Returns the updated table and the result; the thrown `Error`
messages are the source's. -/
def login (shaHex shaB64 : Str → Str) (secret : Str) (now : Nat)
    (users : List User) (username password : Str) :
    List User × Except Str AuthResponse :=
  match users.filter (fun u => u.username == username) with
  | [] => (users, .error (str "Invalid username or password"))
  | user :: _ =>
    if !user.is_active then (users, .error (str "User account is inactive"))
    else if !(verifyPassword shaHex password user.password_hash) then
      (users, .error (str "Invalid username or password"))
    else
      let users2 := users.map
        (fun u => if u.id == user.id then { u with last_login := some now } else u)
      let token := generateToken shaB64 secret now ⟨user.id, user.username, user.role⟩
      (users2, .ok ⟨{ stripPassword user with last_login := some now }, token⟩)

/-- Model of `getCurrentUser` from `auth.ts`: blacklist membership first, then token
verification, then user lookup and the `is_active` check. -/
def getCurrentUser (shaB64 : Str → Str) (secret : Str) (now : Nat)
    (blacklist : List Str) (users : List User) (token : Str) : Except Str UserPublic :=
  if blacklist.contains token then .error (str "Token has been invalidated")
  else
    match verifyToken shaB64 secret now token with
    | .error e => .error e
    | .ok decoded =>
      match users.filter (fun u => u.id == decoded.userId) with
      | [] => .error (str "User not found")
      | user :: _ =>
        if !user.is_active then .error (str "User account is inactive")
        else .ok (stripPassword user)

/-- JavaScript `Set.prototype.add` on the token blacklist. -/
def setAdd (s : List Str) (x : Str) : List Str := if s.contains x then s else x :: s

/-- Model of `logout` from `auth.ts`: verifies the token inside the `try` block and
then adds it to the blacklist; on a verification error the `catch` returns
`{ success: true }` without touching the blacklist. -/
def logout (shaB64 : Str → Str) (secret : Str) (now : Nat)
    (blacklist : List Str) (token : Str) : List Str × Bool :=
  match verifyToken shaB64 secret now token with
  | .ok _ => (setAdd blacklist token, true)
  | .error _ => (blacklist, true)

/-- Model of `reportStatusSchema`: pending, progress, resolved, closed. -/
inductive RStatus
  | pending
  | progress
  | resolved
  | closed
deriving DecidableEq, Repr

/-- Model of `reportPrioritySchema`: low, medium, high, critical. -/
inductive RPriority
  | low
  | medium
  | high
  | critical
deriving DecidableEq, Repr

/-- A row of the `reports` table. -/
structure Report where
  id : Nat
  user_id : Nat
  menu_id : Nat
  sub_menu_id : Nat
  name : Str
  description : Str
  status : RStatus
  priority : RPriority
  assigned_to : Option Nat
  screenshots : List Str
  created_at : Nat
  updated_at : Nat
  resolved_at : Option Nat
deriving DecidableEq, Repr

/-- A row of the `menus` table (the fields the handlers read). -/
structure Menu where
  id : Nat
  name : Str
  is_active : Bool
deriving DecidableEq, Repr

/-- A row of the `sub_menus` table (the fields the handlers read). -/
structure SubMenu where
  id : Nat
  menu_id : Nat
  name : Str
  is_active : Bool
deriving DecidableEq, Repr

/-- The relational store visible to the report handlers. -/
structure DB where
  users : List User
  menus : List Menu
  subMenus : List SubMenu
  reports : List Report
deriving Repr

/-- Model of `updateReportInputSchema`: all change fields optional; `assigned_to`
distinguishes absent (`none`) from explicit null (`some none`). -/
structure UpdateReportInput where
  id : Nat
  menu_id : Option Nat := none
  sub_menu_id : Option Nat := none
  name : Option Str := none
  description : Option Str := none
  status : Option RStatus := none
  priority : Option RPriority := none
  assigned_to : Option (Option Nat) := none
  screenshots : Option (List Str) := none
deriving Repr

/-- The accumulating `updateData` object `updateReport` accumulates: a present
field means the SQL `set` clause writes that column (`resolved_at` may be
written to null, hence the nested option). -/
structure UpdateData where
  updated_at : Nat
  menu_id : Option Nat := none
  sub_menu_id : Option Nat := none
  assigned_to : Option (Option Nat) := none
  name : Option Str := none
  description : Option Str := none
  status : Option RStatus := none
  resolved_at : Option (Option Nat) := none
  priority : Option RPriority := none
  screenshots : Option (List Str) := none
deriving Repr

/-- Model of `db.select().from(menusTable).where(and(eq(id), eq(is_active, true)))`. -/
def findActiveMenu (db : DB) (i : Nat) : List Menu :=
  db.menus.filter (fun m => m.id == i && m.is_active)

/-- Model of `db.select().from(subMenusTable).where(and(eq(id), eq(is_active, true)))`. -/
def findActiveSubMenu (db : DB) (i : Nat) : List SubMenu :=
  db.subMenus.filter (fun m => m.id == i && m.is_active)

/-- Model of `db.select().from(usersTable).where(and(eq(id), eq(is_active, true)))`. -/
def findActiveUser (db : DB) (i : Nat) : List User :=
  db.users.filter (fun u => u.id == i && u.is_active)

/-- Model of `db.select().from(reportsTable).where(eq(id))`. -/
def findReport (db : DB) (i : Nat) : List Report :=
  db.reports.filter (fun r => r.id == i)

/-- The `input.menu_id !== undefined` block of `updateReport`. -/
def menuStep (db : DB) (inp : UpdateReportInput) (ud : UpdateData) : Except Str UpdateData :=
  match inp.menu_id with
  | none => .ok ud
  | some m =>
    if (findActiveMenu db m).isEmpty then .error (str "Invalid menu selected")
    else .ok { ud with menu_id := some m }

/-- Model of `menuIdToCheck` in `updateReport`: the incoming `menu_id` when present,
else the report's current one. -/
def effMenuId (inp : UpdateReportInput) (existing : Report) : Nat :=
  match inp.menu_id with | some m => m | none => existing.menu_id

/-- The `input.sub_menu_id !== undefined` block of `updateReport`, with the
category-consistency check against the effective menu id. -/
def subMenuStep (db : DB) (inp : UpdateReportInput) (existing : Report) (ud : UpdateData) :
    Except Str UpdateData :=
  match inp.sub_menu_id with
  | none => .ok ud
  | some sm =>
    match findActiveSubMenu db sm with
    | [] => .error (str "Invalid sub menu selected")
    | s :: _ =>
      if s.menu_id ≠ effMenuId inp existing then
        .error (str "Sub menu does not belong to the selected menu")
      else .ok { ud with sub_menu_id := some sm }

/-- The `input.assigned_to !== undefined` block of `updateReport`; a
non-null assignee must be an existing active user, null always unassigns. -/
def assigneeStep (db : DB) (inp : UpdateReportInput) (ud : UpdateData) :
    Except Str UpdateData :=
  match inp.assigned_to with
  | none => .ok ud
  | some (some uid) =>
    if (findActiveUser db uid).isEmpty then .error (str "Invalid assigned user")
    else .ok { ud with assigned_to := some (some uid) }
  | some none => .ok { ud with assigned_to := some none }

/-- The `input.name !== undefined` block. -/
def nameStep (inp : UpdateReportInput) (ud : UpdateData) : UpdateData :=
  match inp.name with
  | none => ud
  | some v => { ud with name := some v }

/-- The `input.description !== undefined` block. -/
def descStep (inp : UpdateReportInput) (ud : UpdateData) : UpdateData :=
  match inp.description with
  | none => ud
  | some v => { ud with description := some v }

/-- The `input.status !== undefined` block: adopt the status; stamp
`resolved_at = now` on a change to resolved, clear it when leaving
resolved, otherwise leave the column unwritten. -/
def statusStep (now : Nat) (inp : UpdateReportInput) (existing : Report) (ud : UpdateData) :
    UpdateData :=
  match inp.status with
  | none => ud
  | some st =>
    let ud2 := { ud with status := some st }
    if st = .resolved then { ud2 with resolved_at := some (some now) }
    else if existing.status = .resolved then { ud2 with resolved_at := some none }
    else ud2

/-- The `input.priority !== undefined` block. -/
def prioStep (inp : UpdateReportInput) (ud : UpdateData) : UpdateData :=
  match inp.priority with
  | none => ud
  | some v => { ud with priority := some v }

/-- The `input.screenshots !== undefined` block. -/
def shotsStep (inp : UpdateReportInput) (ud : UpdateData) : UpdateData :=
  match inp.screenshots with
  | none => ud
  | some v => { ud with screenshots := some v }

/-- The validation-and-accumulation phase of `updateReport`, in the
source's statement order (menu, sub-menu, assignee, name, description,
status, priority, screenshots). -/
def buildUpdateData (now : Nat) (db : DB) (inp : UpdateReportInput) (existing : Report) :
    Except Str UpdateData :=
  (menuStep db inp { updated_at := now }).bind fun ud1 =>
  (subMenuStep db inp existing ud1).bind fun ud2 =>
  (assigneeStep db inp ud2).map fun ud3 =>
  shotsStep inp (prioStep inp (statusStep now inp existing (descStep inp (nameStep inp ud3))))

/-- Apply an accumulated `set` clause to a report row. -/
def applyUpdateData (r : Report) (ud : UpdateData) : Report :=
  { r with
    updated_at := ud.updated_at
    menu_id := ud.menu_id.getD r.menu_id
    sub_menu_id := ud.sub_menu_id.getD r.sub_menu_id
    assigned_to := ud.assigned_to.getD r.assigned_to
    name := ud.name.getD r.name
    description := ud.description.getD r.description
    status := ud.status.getD r.status
    resolved_at := ud.resolved_at.getD r.resolved_at
    priority := ud.priority.getD r.priority
    screenshots := ud.screenshots.getD r.screenshots }

/-- Model of `updateReport` from `report_comments.ts`: existence check, the
validation blocks, then the single `db.update(...).set(updateData)`
statement; returns the post-state together with either the thrown error or
`result(0)` of the `returning()` clause (the first matching row). -/
def updateReport (now : Nat) (db : DB) (inp : UpdateReportInput) :
    DB × Except Str Report :=
  match findReport db inp.id with
  | [] => (db, .error (str "Report not found"))
  | existing :: _ =>
    match buildUpdateData now db inp existing with
    | .error e => (db, .error e)
    | .ok ud =>
      let reports2 := db.reports.map
        (fun r => if r.id == inp.id then applyUpdateData r ud else r)
      ({ db with reports := reports2 }, .ok (applyUpdateData existing ud))

/-- Model of `bulkUpdateReportStatusSchema`: ids (nonempty per zod) and a status. -/
structure BulkUpdateStatusInput where
  report_ids : List Nat
  status : RStatus
deriving Repr

/-- Model of `bulkAssignReportsSchema`: ids (nonempty per zod) and an assignee. -/
structure BulkAssignInput where
  report_ids : List Nat
  assigned_to : Nat
deriving Repr

/-- Model of `bulkUpdateReportStatus` from `report_comments.ts`: the committed
handler is an explicit placeholder that touches no stored state and
reports `input.report_ids.length` as the `updated` count. -/
def bulkUpdateReportStatus (db : DB) (inp : BulkUpdateStatusInput) : DB × Bool × Nat :=
  (db, true, inp.report_ids.length)

/-- Model of `bulkAssignReports` from `report_comments.ts`: the committed handler is
an explicit placeholder that touches no stored state and reports
`input.report_ids.length` as the `assigned` count. -/
def bulkAssignReports (db : DB) (inp : BulkAssignInput) : DB × Bool × Nat :=
  (db, true, inp.report_ids.length)

/-- Model of `reportFiltersSchema`: all filter fields optional. -/
structure ReportFilters where
  search : Option Str := none
  status : Option RStatus := none
  priority : Option RPriority := none
  user_id : Option Nat := none
  menu_id : Option Nat := none
  assigned_to : Option Nat := none
  date_from : Option Nat := none
  date_to : Option Nat := none
  page : Option Nat := none
  per_page : Option Nat := none
deriving Repr

/-- Model of `paginationSchema`. -/
structure Pagination where
  total : Nat
  page : Nat
  per_page : Nat
  total_pages : Nat
deriving DecidableEq, Repr

/-- Model of `reportWithDetailsSchema`: a report row joined with its owner,
menu, sub-menu, and optional assignee summaries (no password hashes). -/
structure ReportWithDetails extends Report where
  user : UserPublic
  menu : Menu
  sub_menu : SubMenu
  assigned_user : Option UserPublic
deriving Repr

/-- Model of `getReports` from `report_comments.ts`: the committed handler
is an explicit placeholder that returns no rows and echoes the input
pagination (`page || 1`, `per_page || 10`, zero totals). -/
def getReports (filters : ReportFilters) : List ReportWithDetails × Pagination :=
  ([], ⟨0, filters.page.getD 1, filters.per_page.getD 10, 0⟩)

/-- Model of `getUserReports` from `report_comments.ts`: the committed
handler is an explicit placeholder that ignores the user id, returns no
rows, and echoes the (optional) input pagination. -/
def getUserReports (userId : Nat) (filters : Option ReportFilters) :
    List ReportWithDetails × Pagination :=
  ([], ⟨0, (filters.bind (fun f => f.page)).getD 1,
    (filters.bind (fun f => f.per_page)).getD 10, 0⟩)

/-- The `resolved_at` invariant: non-null iff the status is resolved. -/
def reportInv (r : Report) : Prop := r.resolved_at ≠ none ↔ r.status = RStatus.resolved

/-- Store well-formedness: the invariant on every row, plus primary-key
uniqueness of report ids. -/
def dbInv (db : DB) : Prop :=
  (∀ r ∈ db.reports, reportInv r) ∧ (db.reports.map (fun r => r.id)).Nodup

instance (r : Report) : Decidable (reportInv r) :=
  inferInstanceAs (Decidable (_ ≠ _ ↔ _ = _))

instance (db : DB) : Decidable (dbInv db) :=
  inferInstanceAs (Decidable (_ ∧ _))

/-- One request of an update sequence: the clock reading and the input. -/
def stepUpdate (db : DB) (step : Nat × UpdateReportInput) : DB :=
  (updateReport step.1 db step.2).1

/-- Degenerate digest used by witnesses: constant empty output (dot-free). -/
def shaW : Str → Str := fun _ => []

/-- Injective dot-free digest used by the tamper witness: each input
character becomes a tagged pair. -/
def shaInj : Str → Str
  | [] => []
  | c :: s => (if c = '.' then ['B', 'B'] else ['A', c]) ++ shaInj s

/-- Left inverse of `shaInj`. -/
def unshaInj : Str → Str
  | t :: c :: rest => (if t = 'B' then '.' else c) :: unshaInj rest
  | _ => []

/-- Witness fixtures: a shared secret. -/
def secretW : Str := str "s"

/-- Witness fixtures: a claims triple. -/
def cW : TokenClaims := ⟨1, str "bob", str "user"⟩

/-- Witness fixtures: a token issued at time 0 under `shaW`. -/
def tokW : Str := generateToken shaW secretW 0 cW

/-- Witness fixtures: a pending report owned by user 1 in menu 1. -/
def reportW : Report :=
  ⟨1, 1, 1, 1, str "r", str "d", .pending, .medium, none, [], 0, 0, none⟩

/-- Witness fixtures: a store with one report. -/
def dbW : DB := ⟨[], [], [], [reportW]⟩

/-- Witness fixtures: two update requests, into and out of resolved. -/
def stepsW : List (Nat × UpdateReportInput) :=
  [(5, { id := 1, status := some .resolved }), (6, { id := 1, status := some .progress })]

/-- Witness fixtures: two active menus and a sub-menu owned by menu 2. -/
def dbW7 : DB :=
  ⟨[], [⟨1, str "m1", true⟩, ⟨2, str "m2", true⟩], [⟨5, 2, str "s2", true⟩], [reportW]⟩

/-- Witness fixtures: an update moving the report's sub-menu to menu 2's
sub-menu while its menu stays 1. -/
def inpW7 : UpdateReportInput := { id := 1, sub_menu_id := some 5 }

/-- Witness fixtures: an empty store. -/
def dbEmpty : DB := ⟨[], [], [], []⟩

/-- Witness fixtures: an active user whose stored hash is `ab:cd`. -/
def userW : User :=
  ⟨1, str "alice", str "Alice", str "a@x.io", str "ab:cd", str "user", none, true, none, 0, 0⟩

/-- Witness fixtures: a hex digest stub whose output never matches `cd`. -/
def shaHexW : Str → Str := fun _ => str "zz"

/-- Witness fixtures: a payload-tampered token under the injective digest. -/
def tampW : Str :=
  tokenHeader ++ '.' :: ((tokenPayloadSeg cW 0).set 0 'Z' ++ '.' :: tokenSig shaInj secretW cW 0)

theorem splitOn_ne_nil (sep : Char) (s : Str) : splitOn sep s ≠ [] := by
  induction s with
  | nil => simp [splitOn]
  | cons c rest ih =>
    simp only [splitOn]
    split
    · simp
    · split
      · simp
      · simp

theorem splitOn_no_sep (sep : Char) (s : Str) (h : sep ∉ s) :
    splitOn sep s = [s] := by
  induction s with
  | nil => simp [splitOn]
  | cons c rest ih =>
    simp only [List.mem_cons, not_or] at h
    have hc : ¬ (c = sep) := fun hq => h.1 (hq ▸ rfl)
    simp only [splitOn, if_neg hc, ih h.2]

theorem splitOn_append (sep : Char) (a b : Str) (h : sep ∉ a) :
    splitOn sep (a ++ sep :: b) = a :: splitOn sep b := by
  induction a with
  | nil => simp [splitOn]
  | cons c rest ih =>
    simp only [List.mem_cons, not_or] at h
    have hc : ¬ (c = sep) := fun hq => h.1 (hq ▸ rfl)
    have ihr := ih h.2
    simp only [List.cons_append, splitOn, if_neg hc, List.append_eq, ihr]

theorem splitOn_length (sep : Char) (s : Str) :
    (splitOn sep s).length = s.count sep + 1 := by
  induction s with
  | nil => simp [splitOn]
  | cons c rest ih =>
    simp only [splitOn]
    split
    · rename_i hc
      simp [List.count_cons, hc, ih]
    · rename_i hc
      rcases hs : splitOn sep rest with _ | ⟨t, ts⟩
      · exact absurd hs (splitOn_ne_nil sep rest)
      · have := ih
        rw [hs] at this
        simp only [List.length_cons] at this ⊢
        have hcc : ¬ (c == sep) = true := by simpa using hc
        simp [List.count_cons, hcc]
        omega

theorem stripLead_append (p r : Str) : stripLead p (p ++ r) = some r := by
  induction p with
  | nil => rfl
  | cons c ps ih => simp [stripLead, ih]

theorem hexVal_hexDig (n : Nat) (h : n < 16) : hexVal (hexDig n) = some n := by
  interval_cases n <;> decide

theorem pj_close (rest : Str) : parseJString ('"' :: rest) = some ([], rest) := by
  rw [parseJString.eq_def]
  simp

theorem pj_lit (c : Char) (rest : Str) (h1 : ¬ c = '"') (h2 : ¬ c = '\\') :
    parseJString (c :: rest) = consParse c (parseJString rest) := by
  rw [parseJString.eq_def]
  simp [h1, h2]

theorem pj_eq (rest : Str) :
    parseJString ('\\' :: '"' :: rest) = consParse '"' (parseJString rest) := by
  rw [parseJString.eq_def]
  simp

theorem pj_eb (rest : Str) :
    parseJString ('\\' :: '\\' :: rest) = consParse '\\' (parseJString rest) := by
  rw [parseJString.eq_def]
  simp

theorem pj_b (rest : Str) :
    parseJString ('\\' :: 'b' :: rest) = consParse (Char.ofNat 8) (parseJString rest) := by
  rw [parseJString.eq_def]
  simp

theorem pj_t (rest : Str) :
    parseJString ('\\' :: 't' :: rest) = consParse (Char.ofNat 9) (parseJString rest) := by
  rw [parseJString.eq_def]
  simp

theorem pj_n (rest : Str) :
    parseJString ('\\' :: 'n' :: rest) = consParse (Char.ofNat 10) (parseJString rest) := by
  rw [parseJString.eq_def]
  simp

theorem pj_f (rest : Str) :
    parseJString ('\\' :: 'f' :: rest) = consParse (Char.ofNat 12) (parseJString rest) := by
  rw [parseJString.eq_def]
  simp

theorem pj_r (rest : Str) :
    parseJString ('\\' :: 'r' :: rest) = consParse (Char.ofNat 13) (parseJString rest) := by
  rw [parseJString.eq_def]
  simp

theorem pj_u (d1 d2 : Char) (v1 v2 : Nat) (rest : Str)
    (h1 : hexVal d1 = some v1) (h2 : hexVal d2 = some v2) :
    parseJString ('\\' :: 'u' :: '0' :: '0' :: d1 :: d2 :: rest) =
      consParse (Char.ofNat ((v1 * 16 + v2))) (parseJString rest) := by
  have e0 : hexVal '0' = some 0 := by decide
  rw [parseJString.eq_def]
  simp [e0, h1, h2]

theorem parseJString_escape (s rest : Str) :
    parseJString (escape s ++ '"' :: rest) = some (s, rest) := by
  induction s with
  | nil => simpa [escape] using pj_close rest
  | cons c s ih =>
    simp only [escape, List.append_assoc]
    by_cases h1 : c = '"'
    · subst h1
      simp [escChar, pj_eq, consParse, ih]
    · by_cases h2 : c = '\\'
      · subst h2
        simp [escChar, pj_eb, consParse, ih]
      · by_cases h3 : c = Char.ofNat 8
        · subst h3
          simp [escChar, pj_b, consParse, ih]
        · by_cases h4 : c = Char.ofNat 9
          · subst h4
            simp [escChar, pj_t, consParse, ih]
          · by_cases h5 : c = Char.ofNat 10
            · subst h5
              simp [escChar, pj_n, consParse, ih]
            · by_cases h6 : c = Char.ofNat 12
              · subst h6
                simp [escChar, pj_f, consParse, ih]
              · by_cases h7 : c = Char.ofNat 13
                · subst h7
                  simp [escChar, pj_r, consParse, ih]
                · by_cases h8 : c.toNat < 32
                  · have hd1 : hexVal (hexDig (c.toNat / 16)) = some (c.toNat / 16) :=
                      hexVal_hexDig _ (by omega)
                    have hd2 : hexVal (hexDig (c.toNat % 16)) = some (c.toNat % 16) :=
                      hexVal_hexDig _ (by omega)
                    have hval : c.toNat / 16 * 16 + c.toNat % 16 = c.toNat := by omega
                    simp only [escChar, if_neg h1, if_neg h2, if_neg h3, if_neg h4, if_neg h5,
                      if_neg h6, if_neg h7, if_pos h8, List.cons_append, List.nil_append]
                    rw [pj_u _ _ _ _ _ hd1 hd2, hval, Char.ofNat_toNat]
                    simp [consParse, ih]
                  · simp only [escChar, if_neg h1, if_neg h2, if_neg h3, if_neg h4, if_neg h5,
                      if_neg h6, if_neg h7, if_neg h8, List.cons_append, List.nil_append]
                    rw [pj_lit c _ h1 h2]
                    simp [consParse, ih]

theorem natDigitsAux_congr (n : Nat) : ∀ f1 f2, n < f1 → n < f2 →
    natDigitsAux f1 n = natDigitsAux f2 n := by
  induction n using Nat.strong_induction_on with
  | _ n ih =>
    intro f1 f2 h1 h2
    cases f1 with
    | zero => omega
    | succ g1 =>
      cases f2 with
      | zero => omega
      | succ g2 =>
        rw [natDigitsAux, natDigitsAux]
        by_cases hn : n < 10
        · rw [if_pos hn, if_pos hn]
        · rw [if_neg hn, if_neg hn]
          have hlt : n / 10 < n := Nat.div_lt_self (by omega) (by omega)
          rw [ih (n / 10) hlt g1 g2 (by omega) (by omega)]

theorem natDigits_unfold (n : Nat) :
    natDigits n = if n < 10 then [hexDig n]
      else natDigits (n / 10) ++ [hexDig (n % 10)] := by
  rw [natDigits, natDigitsAux]
  by_cases hn : n < 10
  · rw [if_pos hn, if_pos hn]
  · rw [if_neg hn, if_neg hn, natDigits]
    have hlt : n / 10 < n := Nat.div_lt_self (by omega) (by omega)
    rw [natDigitsAux_congr (n / 10) n (n / 10 + 1) (by omega) (by omega)]

theorem digitsVal_append (a b : Str) (acc : Nat) :
    digitsVal (a ++ b) acc = digitsVal b (digitsVal a acc) := by
  induction a generalizing acc with
  | nil => rfl
  | cons c cs ih => simp [digitsVal, ih]

theorem natDigits_digits (n : Nat) : ∀ c ∈ natDigits n, isDigitCh c = true := by
  induction n using Nat.strong_induction_on with
  | _ n ih =>
    rw [natDigits_unfold]
    split
    · rename_i h
      intro c hc
      simp only [List.mem_singleton] at hc
      subst hc
      interval_cases n <;> decide
    · rename_i h
      intro c hc
      rw [List.mem_append] at hc
      rcases hc with hc | hc
      · exact ih (n / 10) (Nat.div_lt_self (by omega) (by omega)) c hc
      · simp only [List.mem_singleton] at hc
        subst hc
        have : n % 10 < 10 := Nat.mod_lt _ (by omega)
        interval_cases hm : (n % 10) <;> simp_all <;> decide

theorem digitsVal_natDigits (n acc : Nat) :
    digitsVal (natDigits n) acc = acc * 10 ^ (natDigits n).length + n := by
  induction n using Nat.strong_induction_on generalizing acc with
  | _ n ih =>
    rw [natDigits_unfold]
    split
    · rename_i h
      have hv : (hexDig n).toNat - 48 = n := by interval_cases n <;> decide
      simp [digitsVal, hv]
    · rename_i h
      rw [digitsVal_append]
      have hrec := ih (n / 10) (Nat.div_lt_self (by omega) (by omega)) acc
      rw [hrec]
      have hm : n % 10 < 10 := Nat.mod_lt _ (by omega)
      have hv : (hexDig (n % 10)).toNat - 48 = n % 10 := by
        interval_cases hmx : (n % 10) <;> simp_all <;> decide
      simp only [digitsVal, hv, List.length_append, List.length_singleton]
      rw [pow_succ]
      have := Nat.div_add_mod n 10
      ring_nf
      omega

theorem natDigits_ne_nil (n : Nat) : natDigits n ≠ [] := by
  rw [natDigits_unfold]
  split <;> simp

theorem takeWhile_all_append (p : Char → Bool) (a b : Str)
    (ha : ∀ c ∈ a, p c = true) (hb : ∀ c, b.head? = some c → p c = false) :
    (a ++ b).takeWhile p = a ∧ (a ++ b).dropWhile p = b := by
  induction a with
  | nil =>
    cases b with
    | nil => simp
    | cons r rs =>
      have hr := hb r rfl
      simp [List.takeWhile_cons, List.dropWhile_cons, hr]
  | cons c cs ih =>
    have hc := ha c (by simp)
    have ihr := ih (fun x hx => ha x (by simp [hx]))
    simp [List.takeWhile_cons, List.dropWhile_cons, hc, ihr.1, ihr.2]

theorem parseNum_natDigits (n : Nat) (rest : Str)
    (hrest : ∀ c, rest.head? = some c → isDigitCh c = false) :
    parseNum (natDigits n ++ rest) = some (n, rest) := by
  have hall := natDigits_digits n
  have htd := takeWhile_all_append isDigitCh (natDigits n) rest hall hrest
  rw [parseNum, htd.1, htd.2]
  have hne := natDigits_ne_nil n
  cases hnd : natDigits n with
  | nil => exact absurd hnd hne
  | cons d ds =>
    simp only []
    rw [← hnd, digitsVal_natDigits]
    simp

theorem char_toNat_lt (c : Char) : c.toNat < 1114112 := by
  have h := c.valid
  simp only [Char.toNat]
  rcases h with h | h <;> omega

theorem utf8EncodeChar_lt (c : Char) : ∀ b ∈ utf8EncodeChar c, b < 256 := by
  have hlt := char_toNat_lt c
  intro b hb
  simp only [utf8EncodeChar] at hb
  split at hb
  · rename_i h
    simp only [List.mem_singleton] at hb
    omega
  · split at hb
    · rename_i h1 h2
      simp only [List.mem_cons, List.mem_singleton, List.not_mem_nil, or_false] at hb
      rcases hb with hb | hb <;> omega
    · split at hb
      · rename_i h1 h2 h3
        simp only [List.mem_cons, List.mem_singleton, List.not_mem_nil, or_false] at hb
        rcases hb with hb | hb | hb <;> omega
      · rename_i h1 h2 h3
        simp only [List.mem_cons, List.mem_singleton, List.not_mem_nil, or_false] at hb
        rcases hb with hb | hb | hb | hb <;> omega

theorem utf8Encode_lt (s : Str) : ∀ b ∈ utf8Encode s, b < 256 := by
  induction s with
  | nil => simp [utf8Encode]
  | cons c cs ih =>
    intro b hb
    simp only [utf8Encode, List.mem_append] at hb
    rcases hb with hb | hb
    · exact utf8EncodeChar_lt c b hb
    · exact ih b hb

theorem utf8Decode_encodeChar (c : Char) (rest : List Nat) :
    utf8Decode (utf8EncodeChar c ++ rest) = (utf8Decode rest).map (c :: ·) := by
  have hlt := char_toNat_lt c
  simp only [utf8EncodeChar]
  by_cases h1 : c.toNat < 128
  · rw [if_pos h1, List.cons_append, List.nil_append, utf8Decode.eq_def]
    simp only []
    rw [if_pos h1, Char.ofNat_toNat]
  · rw [if_neg h1]
    by_cases h2 : c.toNat < 2048
    · rw [if_pos h2, List.cons_append, List.cons_append, List.nil_append, utf8Decode.eq_def]
      simp only []
      rw [if_neg (by omega), if_neg (by omega)]
      rw [if_neg (by omega), if_pos (by omega)]
      have hv : (192 + c.toNat / 64 - 192) * 64 + (128 + c.toNat % 64 - 128) = c.toNat := by
        omega
      rw [hv, Char.ofNat_toNat]
    · rw [if_neg h2]
      by_cases h3 : c.toNat < 65536
      · rw [if_pos h3, List.cons_append, List.cons_append, List.cons_append, List.nil_append,
          utf8Decode.eq_def]
        simp only []
        rw [if_neg (by omega), if_neg (by omega)]
        rw [if_neg (by omega), if_neg (by omega)]
        rw [if_neg (by omega), if_pos (by omega)]
        have hv : ((224 + c.toNat / 4096 - 224) * 64 + (128 + c.toNat / 64 % 64 - 128)) * 64 +
            (128 + c.toNat % 64 - 128) = c.toNat := by omega
        rw [hv, Char.ofNat_toNat]
      · rw [if_neg h3, List.cons_append, List.cons_append, List.cons_append, List.cons_append,
          List.nil_append, utf8Decode.eq_def]
        simp only []
        rw [if_neg (by omega), if_neg (by omega)]
        rw [if_neg (by omega), if_neg (by omega)]
        rw [if_neg (by omega), if_neg (by omega)]
        rw [if_neg (by omega), if_pos (by omega)]
        have hv : (((240 + c.toNat / 262144 - 240) * 64 + (128 + c.toNat / 4096 % 64 - 128)) * 64 +
            (128 + c.toNat / 64 % 64 - 128)) * 64 + (128 + c.toNat % 64 - 128) = c.toNat := by
          omega
        rw [hv, Char.ofNat_toNat]

theorem utf8Decode_encode (s : Str) : utf8Decode (utf8Encode s) = some s := by
  induction s with
  | nil => rfl
  | cons c cs ih =>
    rw [utf8Encode, utf8Decode_encodeChar, ih]
    rfl

theorem b64_dec_enc : ∀ n, n < 64 → b64DecChar (b64EncChar n) = some n := by decide

theorem b64EncChar_ne_dot (n : Nat) : b64EncChar n ≠ '.' := by
  by_cases h : n < 64
  · revert h
    revert n
    decide
  · have hlen : b64Alphabet.length = 64 := by decide
    have hout : b64Alphabet.getD n 'A' = 'A' := by
      rw [List.getD_eq_getElem?_getD, List.getElem?_eq_none (by omega)]
      rfl
    simp only [b64EncChar, hout]
    decide

theorem b64Encode_ne_dot (bs : List Nat) : '.' ∉ b64Encode bs := by
  induction bs using b64Encode.induct with
  | case1 a b c rest ih =>
    simp only [b64Encode, List.mem_cons, not_or]
    exact ⟨fun h => b64EncChar_ne_dot _ h.symm, fun h => b64EncChar_ne_dot _ h.symm,
      fun h => b64EncChar_ne_dot _ h.symm, fun h => b64EncChar_ne_dot _ h.symm, ih⟩
  | case2 a b =>
    simp only [b64Encode, List.mem_cons, not_or]
    refine ⟨fun h => b64EncChar_ne_dot _ h.symm, fun h => b64EncChar_ne_dot _ h.symm,
      fun h => b64EncChar_ne_dot _ h.symm, by simp⟩
  | case3 a =>
    simp only [b64Encode, List.mem_cons, not_or]
    refine ⟨fun h => b64EncChar_ne_dot _ h.symm, fun h => b64EncChar_ne_dot _ h.symm, by simp⟩
  | case4 => simp [b64Encode]

theorem b64Decode_encode (bs : List Nat) (hlt : ∀ b ∈ bs, b < 256) :
    b64Decode (b64Encode bs) = some bs := by
  induction bs using b64Encode.induct with
  | case1 a b c rest ih =>
    have ha : a < 256 := hlt a (by simp)
    have hb : b < 256 := hlt b (by simp)
    have hc : c < 256 := hlt c (by simp)
    have ihr := ih (fun x hx => hlt x (by simp [hx]))
    rw [b64Encode, b64Decode]
    rw [b64_dec_enc _ (by omega), b64_dec_enc _ (by omega), b64_dec_enc _ (by omega),
      b64_dec_enc _ (by omega)]
    simp only [ihr, Option.map_some]
    have e1 : a / 4 * 4 + (a % 4 * 16 + b / 16) / 16 = a := by omega
    have e2 : (a % 4 * 16 + b / 16) % 16 * 16 + (b % 16 * 4 + c / 64) / 4 = b := by omega
    have e3 : (b % 16 * 4 + c / 64) % 4 * 64 + c % 64 = c := by omega
    rw [e1, e2, e3]
    rfl
  | case2 a b =>
    have ha : a < 256 := hlt a (by simp)
    have hb : b < 256 := hlt b (by simp)
    rw [b64Encode, b64Decode]
    rw [b64_dec_enc _ (by omega), b64_dec_enc _ (by omega), b64_dec_enc _ (by omega)]
    simp only []
    have e1 : a / 4 * 4 + (a % 4 * 16 + b / 16) / 16 = a := by omega
    have e2 : (a % 4 * 16 + b / 16) % 16 * 16 + b % 16 * 4 / 4 = b := by omega
    rw [e1, e2]
  | case3 a =>
    have ha : a < 256 := hlt a (by simp)
    rw [b64Encode, b64Decode]
    rw [b64_dec_enc _ (by omega), b64_dec_enc _ (by omega)]
    simp only []
    have e1 : a / 4 * 4 + a % 4 * 16 / 16 = a := by omega
    rw [e1]
  | case4 => rw [b64Encode, b64Decode]

theorem b64s_ne_dot (s : Str) : '.' ∉ b64s s := b64Encode_ne_dot _

theorem b64sDecode_b64s (s : Str) : b64sDecode (b64s s) = some s := by
  rw [b64sDecode, b64s, b64Decode_encode _ (utf8Encode_lt s)]
  exact utf8Decode_encode s

theorem parsePayload_payloadJson (c : TokenClaims) (now : Nat) :
    parsePayload (payloadJson c now) =
      some ⟨c.userId, c.username, c.role, now, now + 86400⟩ := by
  rw [parsePayload, payloadJson, stripLead_append, Option.some_bind]
  rw [parseNum_natDigits _ _ (by intro ch h; cases h; decide), Option.some_bind]
  rw [stripLead_append, Option.some_bind]
  rw [parseJString_escape, Option.some_bind]
  rw [stripLead_append, Option.some_bind]
  rw [parseJString_escape, Option.some_bind]
  rw [stripLead_append, Option.some_bind]
  rw [parseNum_natDigits _ _ (by intro ch h; cases h; decide), Option.some_bind]
  rw [stripLead_append, Option.some_bind]
  rw [parseNum_natDigits _ _ (by intro ch h; cases h; decide), Option.some_bind]
  rfl

theorem generateToken_eq (sha : Str → Str) (secret : Str) (now : Nat) (c : TokenClaims) :
    generateToken sha secret now c =
      tokenHeader ++ '.' :: (tokenPayloadSeg c now ++ '.' :: tokenSig sha secret c now) := rfl

theorem splitOn_three (h p s : Str) (hh : '.' ∉ h) (hp : '.' ∉ p) (hs : '.' ∉ s) :
    splitOn '.' (h ++ '.' :: (p ++ '.' :: s)) = [h, p, s] := by
  rw [splitOn_append _ _ _ hh, splitOn_append _ _ _ hp, splitOn_no_sep _ _ hs]

theorem splitOn_four (h p q s : Str) (hh : '.' ∉ h) (hp : '.' ∉ p) (hq : '.' ∉ q)
    (hs : '.' ∉ s) :
    splitOn '.' (h ++ '.' :: (p ++ '.' :: (q ++ '.' :: s))) = [h, p, q, s] := by
  rw [splitOn_append _ _ _ hh, splitOn_append _ _ _ hp, splitOn_append _ _ _ hq,
    splitOn_no_sep _ _ hs]

theorem tokenHeader_ne_dot : '.' ∉ tokenHeader := b64s_ne_dot _

theorem tokenPayloadSeg_ne_dot (c : TokenClaims) (now : Nat) :
    '.' ∉ tokenPayloadSeg c now := b64s_ne_dot _

theorem tokenSig_ne_dot (sha : Str → Str) (secret : Str) (c : TokenClaims) (now : Nat)
    (hdot : ∀ x, '.' ∉ sha x) : '.' ∉ tokenSig sha secret c now := hdot _

theorem verify_generate (sha : Str → Str) (secret : Str) (c : TokenClaims) (now now2 : Nat)
    (hdot : ∀ x, '.' ∉ sha x) (hexp : now2 ≤ now + 86400) :
    verifyToken sha secret now2 (generateToken sha secret now c) =
      .ok ⟨c.userId, c.username, c.role⟩ := by
  rw [generateToken_eq]
  simp only [verifyToken]
  rw [splitOn_three _ _ _ tokenHeader_ne_dot (tokenPayloadSeg_ne_dot c now)
    (tokenSig_ne_dot _ _ _ _ hdot)]
  simp only []
  rw [if_neg (by simp [tokenSig])]
  rw [tokenPayloadSeg, b64sDecode_b64s]
  simp only []
  rw [parsePayload_payloadJson]
  simp only []
  rw [if_neg (by omega)]

theorem not_mem_set (l : Str) (j : Nat) (ch x : Char) (hx : x ∉ l) (hne : x ≠ ch) :
    x ∉ l.set j ch :=
  fun h => (List.mem_or_eq_of_mem_set h).elim hx hne

theorem set_ne_of_get_ne (l : Str) (j : Nat) (hj : j < l.length) (ch : Char)
    (hne : ch ≠ l.get ⟨j, hj⟩) : l.set j ch ≠ l := by
  intro he
  apply hne
  have h1 : (l.set j ch).get ⟨j, by simpa using hj⟩ = ch := by
    simp
  rw [← h1]
  simp [he]

theorem verify_payload_tampered (sha : Str → Str) (secret : Str) (c : TokenClaims)
    (now now2 : Nat) (hinj : Function.Injective sha) (hdot : ∀ x, '.' ∉ sha x)
    (j : Nat) (ch : Char) (hj : j < (tokenPayloadSeg c now).length)
    (hne : ch ≠ (tokenPayloadSeg c now).get ⟨j, hj⟩) :
    verifyToken sha secret now2 (tokenHeader ++ '.' ::
        ((tokenPayloadSeg c now).set j ch ++ '.' :: tokenSig sha secret c now)) =
      .error (str "Invalid token format") ∨
    verifyToken sha secret now2 (tokenHeader ++ '.' ::
        ((tokenPayloadSeg c now).set j ch ++ '.' :: tokenSig sha secret c now)) =
      .error (str "Invalid token signature") := by
  set p := tokenPayloadSeg c now with hp
  by_cases hch : ch = '.'
  · left
    rw [hch]
    have hset : p.set j '.' = p.take j ++ '.' :: p.drop (j + 1) := by
      rw [List.set_eq_take_append_cons_drop, if_pos hj]
    simp only [verifyToken]
    rw [hset]
    have hassoc : (p.take j ++ '.' :: p.drop (j + 1)) ++ '.' :: tokenSig sha secret c now =
        p.take j ++ '.' :: (p.drop (j + 1) ++ '.' :: tokenSig sha secret c now) := by
      simp
    rw [hassoc]
    rw [splitOn_four _ _ _ _ tokenHeader_ne_dot
      (fun hmem => tokenPayloadSeg_ne_dot c now (List.take_subset _ _ hmem))
      (fun hmem => tokenPayloadSeg_ne_dot c now (List.drop_subset _ _ hmem))
      (tokenSig_ne_dot _ _ _ _ hdot)]
  · right
    have hpd : '.' ∉ p.set j ch :=
      not_mem_set _ _ _ _ (tokenPayloadSeg_ne_dot c now) (fun he => hch he.symm)
    simp only [verifyToken]
    rw [splitOn_three _ _ _ tokenHeader_ne_dot hpd (tokenSig_ne_dot _ _ _ _ hdot)]
    simp only []
    rw [if_pos]
    intro heq
    have harg : tokenHeader ++ '.' :: (p ++ '.' :: secret) =
        tokenHeader ++ '.' :: (p.set j ch ++ '.' :: secret) := hinj heq
    have h1 : p ++ '.' :: secret = p.set j ch ++ '.' :: secret := by
      have := List.append_cancel_left harg
      exact List.cons.inj this |>.2
    have h2 : p = p.set j ch := by
      refine (List.append_inj h1 ?_).1
      simp
    exact set_ne_of_get_ne p j hj ch hne h2.symm

theorem verify_sig_tampered (sha : Str → Str) (secret : Str) (c : TokenClaims)
    (now now2 : Nat) (hdot : ∀ x, '.' ∉ sha x)
    (k : Nat) (ch : Char) (hk : k < (tokenSig sha secret c now).length)
    (hne : ch ≠ (tokenSig sha secret c now).get ⟨k, hk⟩) :
    verifyToken sha secret now2 (tokenHeader ++ '.' ::
        (tokenPayloadSeg c now ++ '.' :: (tokenSig sha secret c now).set k ch)) =
      .error (str "Invalid token format") ∨
    verifyToken sha secret now2 (tokenHeader ++ '.' ::
        (tokenPayloadSeg c now ++ '.' :: (tokenSig sha secret c now).set k ch)) =
      .error (str "Invalid token signature") := by
  set s := tokenSig sha secret c now with hs
  by_cases hch : ch = '.'
  · left
    rw [hch]
    have hset : s.set k '.' = s.take k ++ '.' :: s.drop (k + 1) := by
      rw [List.set_eq_take_append_cons_drop, if_pos hk]
    simp only [verifyToken]
    rw [hset]
    rw [splitOn_four _ _ _ _ tokenHeader_ne_dot (tokenPayloadSeg_ne_dot c now)
      (fun hmem => tokenSig_ne_dot _ _ _ _ hdot (List.take_subset _ _ hmem))
      (fun hmem => tokenSig_ne_dot _ _ _ _ hdot (List.drop_subset _ _ hmem))]
  · right
    have hsd : '.' ∉ s.set k ch :=
      not_mem_set _ _ _ _ (tokenSig_ne_dot _ _ _ _ hdot) (fun he => hch he.symm)
    simp only [verifyToken]
    rw [splitOn_three _ _ _ tokenHeader_ne_dot (tokenPayloadSeg_ne_dot c now) hsd]
    simp only []
    rw [if_pos]
    intro heq
    exact set_ne_of_get_ne s k hk ch hne heq

theorem setAdd_contains (s : List Str) (x : Str) : (setAdd s x).contains x = true := by
  rw [setAdd]
  split
  · assumption
  · simp

theorem menuStep_fields (db : DB) (inp : UpdateReportInput) (ud ud' : UpdateData)
    (h : menuStep db inp ud = .ok ud') :
    ud'.status = ud.status ∧ ud'.resolved_at = ud.resolved_at ∧
      ud'.updated_at = ud.updated_at := by
  unfold menuStep at h
  split at h
  · cases h
    exact ⟨rfl, rfl, rfl⟩
  · split at h
    · simp at h
    · cases h
      exact ⟨rfl, rfl, rfl⟩

theorem subMenuStep_fields (db : DB) (inp : UpdateReportInput) (existing : Report)
    (ud ud' : UpdateData) (h : subMenuStep db inp existing ud = .ok ud') :
    ud'.status = ud.status ∧ ud'.resolved_at = ud.resolved_at ∧
      ud'.updated_at = ud.updated_at := by
  unfold subMenuStep at h
  split at h
  · cases h
    exact ⟨rfl, rfl, rfl⟩
  · split at h
    · simp at h
    · split at h <;>
        first
          | (cases h; exact ⟨rfl, rfl, rfl⟩)
          | simp at h

theorem assigneeStep_fields (db : DB) (inp : UpdateReportInput) (ud ud' : UpdateData)
    (h : assigneeStep db inp ud = .ok ud') :
    ud'.status = ud.status ∧ ud'.resolved_at = ud.resolved_at ∧
      ud'.updated_at = ud.updated_at := by
  unfold assigneeStep at h
  split at h
  · cases h
    exact ⟨rfl, rfl, rfl⟩
  · split at h
    · simp at h
    · cases h
      exact ⟨rfl, rfl, rfl⟩
  · cases h
    exact ⟨rfl, rfl, rfl⟩

theorem nameStep_fields (inp : UpdateReportInput) (ud : UpdateData) :
    (nameStep inp ud).status = ud.status ∧ (nameStep inp ud).resolved_at = ud.resolved_at ∧
      (nameStep inp ud).updated_at = ud.updated_at := by
  unfold nameStep
  split
  · exact ⟨rfl, rfl, rfl⟩
  · exact ⟨rfl, rfl, rfl⟩

theorem descStep_fields (inp : UpdateReportInput) (ud : UpdateData) :
    (descStep inp ud).status = ud.status ∧ (descStep inp ud).resolved_at = ud.resolved_at ∧
      (descStep inp ud).updated_at = ud.updated_at := by
  unfold descStep
  split
  · exact ⟨rfl, rfl, rfl⟩
  · exact ⟨rfl, rfl, rfl⟩

theorem prioStep_fields (inp : UpdateReportInput) (ud : UpdateData) :
    (prioStep inp ud).status = ud.status ∧ (prioStep inp ud).resolved_at = ud.resolved_at ∧
      (prioStep inp ud).updated_at = ud.updated_at := by
  unfold prioStep
  split
  · exact ⟨rfl, rfl, rfl⟩
  · exact ⟨rfl, rfl, rfl⟩

theorem shotsStep_fields (inp : UpdateReportInput) (ud : UpdateData) :
    (shotsStep inp ud).status = ud.status ∧ (shotsStep inp ud).resolved_at = ud.resolved_at ∧
      (shotsStep inp ud).updated_at = ud.updated_at := by
  unfold shotsStep
  split
  · exact ⟨rfl, rfl, rfl⟩
  · exact ⟨rfl, rfl, rfl⟩

theorem statusStep_fields (now : Nat) (inp : UpdateReportInput) (existing : Report)
    (ud : UpdateData) :
    (statusStep now inp existing ud).status =
        (match inp.status with | none => ud.status | some st => some st) ∧
      (statusStep now inp existing ud).resolved_at =
        (match inp.status with
          | none => ud.resolved_at
          | some st =>
            if st = .resolved then some (some now)
            else if existing.status = .resolved then some none else ud.resolved_at) ∧
      (statusStep now inp existing ud).updated_at = ud.updated_at := by
  unfold statusStep
  cases inp.status with
  | none => exact ⟨rfl, rfl, rfl⟩
  | some st =>
    simp only []
    by_cases h1 : st = RStatus.resolved
    · simp [h1]
    · by_cases h2 : existing.status = RStatus.resolved
      · simp [h1, h2]
      · simp [h1, h2]

theorem buildUpdateData_fields (now : Nat) (db : DB) (inp : UpdateReportInput)
    (existing : Report) (ud : UpdateData)
    (h : buildUpdateData now db inp existing = .ok ud) :
    ud.updated_at = now ∧ ud.status = inp.status ∧
      ud.resolved_at = (match inp.status with
        | none => none
        | some st =>
          if st = .resolved then some (some now)
          else if existing.status = .resolved then some none else none) := by
  unfold buildUpdateData at h
  cases hm : menuStep db inp { updated_at := now } with
  | error e => rw [hm] at h; simp [Except.bind] at h
  | ok ud1 =>
    rw [hm] at h
    simp only [Except.bind] at h
    cases hsm : subMenuStep db inp existing ud1 with
    | error e => rw [hsm] at h; simp [Except.bind] at h
    | ok ud2 =>
      rw [hsm] at h
      simp only [Except.bind] at h
      cases ha : assigneeStep db inp ud2 with
      | error e => rw [ha] at h; simp [Except.map] at h
      | ok ud3 =>
        rw [ha] at h
        simp only [Except.map] at h
        cases h
        have f1 := menuStep_fields _ _ _ _ hm
        have f2 := subMenuStep_fields _ _ _ _ _ hsm
        have f3 := assigneeStep_fields _ _ _ _ ha
        have f4 := nameStep_fields inp ud3
        have f5 := descStep_fields inp (nameStep inp ud3)
        have f6 := statusStep_fields now inp existing (descStep inp (nameStep inp ud3))
        have f7 := prioStep_fields inp (statusStep now inp existing (descStep inp (nameStep inp ud3)))
        have f8 := shotsStep_fields inp
          (prioStep inp (statusStep now inp existing (descStep inp (nameStep inp ud3))))
        have hst3 : ud3.status = none := by
          rw [f3.1, f2.1, f1.1]
        have hra3 : ud3.resolved_at = none := by
          rw [f3.2.1, f2.2.1, f1.2.1]
        have hua3 : ud3.updated_at = now := by
          rw [f3.2.2, f2.2.2, f1.2.2]
        refine ⟨?_, ?_, ?_⟩
        · rw [f8.2.2, f7.2.2, f6.2.2, f5.2.2, f4.2.2, hua3]
        · rw [f8.1, f7.1, f6.1, f5.1, f4.1, hst3]
          cases inp.status <;> rfl
        · rw [f8.2.1, f7.2.1, f6.2.1, f5.2.1, f4.2.1, hra3]

theorem applyUpdateData_id (r : Report) (ud : UpdateData) :
    (applyUpdateData r ud).id = r.id := rfl

theorem applyUpdateData_inv (now : Nat) (db : DB) (inp : UpdateReportInput)
    (existing : Report) (ud : UpdateData)
    (hb : buildUpdateData now db inp existing = .ok ud) (hinv : reportInv existing) :
    reportInv (applyUpdateData existing ud) := by
  obtain ⟨hu, hs, hr⟩ := buildUpdateData_fields now db inp existing ud hb
  unfold reportInv applyUpdateData at *
  cases hst : inp.status with
  | none =>
    rw [hst] at hs hr
    simp only [] at hr
    simp only [hs, hr, Option.getD_none]
    simpa using hinv
  | some st =>
    rw [hst] at hs hr
    simp only [] at hr
    by_cases h1 : st = RStatus.resolved
    · rw [if_pos h1] at hr
      simp [hs, hr, h1]
    · rw [if_neg h1] at hr
      by_cases h2 : existing.status = RStatus.resolved
      · rw [if_pos h2] at hr
        simp [hs, hr, h1]
      · rw [if_neg h2] at hr
        have hnone : existing.resolved_at = none := by
          by_contra hne
          exact h2 (hinv.mp hne)
        simp [hs, hr, h1, hnone]

theorem updateReport_dbInv (now : Nat) (db : DB) (inp : UpdateReportInput)
    (h : dbInv db) : dbInv (updateReport now db inp).1 := by
  unfold updateReport
  cases hf : findReport db inp.id with
  | nil => exact h
  | cons existing rest =>
    simp only []
    cases hb : buildUpdateData now db inp existing with
    | error e => exact h
    | ok ud =>
      simp only []
      obtain ⟨hall, hnd⟩ := h
      have hx : existing ∈ findReport db inp.id := by rw [hf]; simp
      unfold findReport at hx
      have hmem : existing ∈ db.reports := (List.mem_filter.mp hx).1
      have hide : (existing.id == inp.id) = true := (List.mem_filter.mp hx).2
      constructor
      · intro r hr
        rw [List.mem_map] at hr
        obtain ⟨r0, hr0, hreq⟩ := hr
        by_cases hid : (r0.id == inp.id) = true
        · rw [if_pos hid] at hreq
          have hre : r0 = existing := by
            apply List.inj_on_of_nodup_map hnd hr0 hmem
            have h1 : r0.id = inp.id := by simpa using hid
            have h2 : existing.id = inp.id := by simpa using hide
            simp [h1, h2]
          rw [← hreq, hre]
          exact applyUpdateData_inv now db inp existing ud hb (hall existing hmem)
        · rw [if_neg hid] at hreq
          rw [← hreq]
          exact hall r0 hr0
      · have hmap : (db.reports.map
            (fun r => if r.id == inp.id then applyUpdateData r ud else r)).map
              (fun r => r.id) = db.reports.map (fun r => r.id) := by
          rw [List.map_map]
          apply List.map_congr_left
          intro r hr
          by_cases hid : (r.id == inp.id) = true
          · simp only [Function.comp]
            rw [if_pos hid, applyUpdateData_id]
          · simp only [Function.comp]
            rw [if_neg hid]
        rw [hmap]
        exact hnd

theorem foldl_stepUpdate_dbInv (steps : List (Nat × UpdateReportInput)) (db : DB)
    (h : dbInv db) : dbInv (steps.foldl stepUpdate db) := by
  induction steps generalizing db with
  | nil => exact h
  | cons s rest ih =>
    exact ih _ (updateReport_dbInv s.1 db s.2 h)

theorem updateReport_category (now : Nat) (db : DB) (inp : UpdateReportInput)
    (existing : Report) (rest : List Report) (sm : Nat) (s : SubMenu) (srest : List SubMenu)
    (hf : findReport db inp.id = existing :: rest)
    (hsm : inp.sub_menu_id = some sm)
    (hfind : findActiveSubMenu db sm = s :: srest)
    (hmenu : ∀ m, inp.menu_id = some m → (findActiveMenu db m).isEmpty = false) :
    (s.menu_id ≠ effMenuId inp existing →
      (updateReport now db inp).2 =
        .error (str "Sub menu does not belong to the selected menu")) ∧
    (s.menu_id = effMenuId inp existing →
      (updateReport now db inp).2 ≠
        .error (str "Sub menu does not belong to the selected menu")) := by
  have hms : ∃ ud1, menuStep db inp { updated_at := now } = .ok ud1 := by
    cases hm : inp.menu_id with
    | none => exact ⟨_, by unfold menuStep; rw [hm]⟩
    | some m =>
      refine ⟨{ ({ updated_at := now } : UpdateData) with menu_id := some m }, ?_⟩
      unfold menuStep
      rw [hm]
      simp only []
      rw [hmenu m hm]
      simp
  obtain ⟨ud1, hm1⟩ := hms
  unfold updateReport
  rw [hf]
  simp only []
  unfold buildUpdateData
  rw [hm1]
  simp only [Except.bind]
  constructor
  · intro hne
    have hsub : subMenuStep db inp existing ud1 =
        .error (str "Sub menu does not belong to the selected menu") := by
      unfold subMenuStep
      rw [hsm]
      simp only []
      rw [hfind]
      simp only []
      rw [if_pos hne]
    rw [hsub]
  · intro heq
    have hsub : subMenuStep db inp existing ud1 =
        .ok { ud1 with sub_menu_id := some sm } := by
      unfold subMenuStep
      rw [hsm]
      simp only []
      rw [hfind]
      simp only []
      rw [if_neg (by simp [heq])]
    rw [hsub]
    simp only [Except.bind]
    cases ha : assigneeStep db inp { ud1 with sub_menu_id := some sm } with
    | error e =>
      have he : e = str "Invalid assigned user" := by
        unfold assigneeStep at ha
        split at ha
        · simp at ha
        · split at ha
          · simp only [Except.error.injEq] at ha
            exact ha.symm
          · simp at ha
        · simp at ha
      simp only [Except.map]
      rw [he]
      intro hcontra
      simp only [Except.error.injEq] at hcontra
      have : ('I' : Char) = 'S' := by
        have := congrArg (fun l => List.headD l ' ') hcontra
        simpa [str] using this
      exact absurd this (by decide)
    | ok ud3 =>
      simp only [Except.map]
      intro hcontra
      simp at hcontra

theorem updateReport_atomic (now : Nat) (db : DB) (inp : UpdateReportInput) (e : Str)
    (h : (updateReport now db inp).2 = .error e) : (updateReport now db inp).1 = db := by
  unfold updateReport at h ⊢
  cases hf : findReport db inp.id with
  | nil => simp only []
  | cons existing rest =>
    rw [hf] at h
    simp only [] at h
    cases hb : buildUpdateData now db inp existing with
    | error e2 => simp only [hb]
    | ok ud =>
      rw [hb] at h
      simp at h

theorem logout_error_keeps (shaB64 : Str → Str) (secret : Str) (nowL : Nat)
    (bl : List Str) (t : Str) (e : Str)
    (hv : verifyToken shaB64 secret nowL t = .error e) :
    (logout shaB64 secret nowL bl t).1 = bl := by
  unfold logout
  rw [hv]

theorem getCurrentUser_propagates (shaB64 : Str → Str) (secret : Str) (nowG : Nat)
    (bl : List Str) (users : List User) (t : Str) (e : Str)
    (hbl : bl.contains t = false)
    (hv : verifyToken shaB64 secret nowG t = .error e) :
    getCurrentUser shaB64 secret nowG bl users t = .error e := by
  unfold getCurrentUser
  rw [if_neg (by rw [hbl]; simp)]
  rw [hv]

theorem logout_behavior (shaB64 : Str → Str) (secret : Str) (nowL nowG : Nat)
    (bl : List Str) (users : List User) (t : Str) :
    ((logout shaB64 secret nowL bl t).2 = true) ∧
    (∀ cl, verifyToken shaB64 secret nowL t = .ok cl →
      (logout shaB64 secret nowL bl t).1 = setAdd bl t ∧
      getCurrentUser shaB64 secret nowG (setAdd bl t) users t =
        .error (str "Token has been invalidated")) := by
  constructor
  · unfold logout
    cases verifyToken shaB64 secret nowL t <;> rfl
  · intro cl hv
    constructor
    · unfold logout
      rw [hv]
    · unfold getCurrentUser
      rw [if_pos (setAdd_contains bl t)]

theorem login_invalid_credentials (shaHex shaB64 : Str → Str) (secret : Str) (now : Nat)
    (users : List User) (uname pw : Str) :
    ((users.filter (fun u => u.username == uname) = []) →
      (login shaHex shaB64 secret now users uname pw).2 =
        .error (str "Invalid username or password")) ∧
    (∀ u rest, users.filter (fun u => u.username == uname) = u :: rest →
      u.is_active = true →
      verifyPassword shaHex pw u.password_hash = false →
      (login shaHex shaB64 secret now users uname pw).2 =
        .error (str "Invalid username or password")) := by
  constructor
  · intro hempty
    unfold login
    rw [hempty]
  · intro u rest hfil hact hpw
    unfold login
    rw [hfil]
    simp only []
    rw [hact, hpw]
    simp

theorem hashPassword_split (shaHex : Str → Str) (hcolon : ∀ x, ':' ∉ shaHex x)
    (salt p : Str) (hs : ':' ∉ salt) :
    splitOn ':' (hashPassword shaHex salt p) = [salt, shaHex (p ++ salt)] := by
  unfold hashPassword
  rw [splitOn_append _ _ _ hs, splitOn_no_sep _ _ (hcolon _)]

theorem hash_verify_roundtrip (shaHex : Str → Str) (hcolon : ∀ x, ':' ∉ shaHex x)
    (salt1 salt2 p : Str) (hs1 : ':' ∉ salt1) (hs2 : ':' ∉ salt2) (hne : salt1 ≠ salt2) :
    verifyPassword shaHex p (hashPassword shaHex salt1 p) = true ∧
    verifyPassword shaHex p (hashPassword shaHex salt2 p) = true ∧
    hashPassword shaHex salt1 p ≠ hashPassword shaHex salt2 p := by
  have h1 := hashPassword_split shaHex hcolon salt1 p hs1
  have h2 := hashPassword_split shaHex hcolon salt2 p hs2
  refine ⟨?_, ?_, ?_⟩
  · unfold verifyPassword
    rw [h1]
    simp
  · unfold verifyPassword
    rw [h2]
    simp
  · intro he
    have hsp := congrArg (splitOn ':') he
    rw [h1, h2] at hsp
    simp only [List.cons.injEq] at hsp
    exact hne hsp.1

theorem shaW_ne_dot : ∀ x, '.' ∉ shaW x := by
  intro x
  simp [shaW]

theorem unshaInj_shaInj (s : Str) : unshaInj (shaInj s) = s := by
  induction s with
  | nil => rfl
  | cons c cs ih =>
    by_cases hc : c = '.'
    · rw [shaInj, if_pos hc]
      simp only [List.cons_append, List.nil_append]
      rw [unshaInj]
      simp [ih, hc]
    · rw [shaInj, if_neg hc]
      simp only [List.cons_append, List.nil_append]
      rw [unshaInj]
      simp [ih]

theorem shaInj_injective : Function.Injective shaInj :=
  Function.LeftInverse.injective unshaInj_shaInj

theorem shaInj_ne_dot (s : Str) : '.' ∉ shaInj s := by
  induction s with
  | nil => simp [shaInj]
  | cons c cs ih =>
    rw [shaInj]
    rw [List.mem_append, not_or]
    refine ⟨?_, ih⟩
    by_cases hc : c = '.'
    · rw [if_pos hc]
      decide
    · rw [if_neg hc]
      intro hmem
      simp only [List.mem_cons, List.not_mem_nil, or_false] at hmem
      rcases hmem with h | h
      · exact absurd h (by decide)
      · exact hc h.symm

theorem shaHexW_ne_colon : ∀ x, ':' ∉ shaHexW x := by
  intro x
  show ':' ∉ str "zz"
  decide

/-- C1 counterexample: for the malformed token `"x"`, `logout` reports
success but does not add the token to the revocation set (the
`tokenBlacklist.add` sits after `verifyToken` in the `try` block), and a
subsequent `getCurrentUser` fails with the token-format error, not with
`TokenInvalidated` — refuting the claim that every token string is revoked
and subsequently rejected as invalidated. -/
theorem claim_C1_counterexample :
    (logout shaW secretW 0 [] (str "x")).2 = true ∧
    (str "x") ∉ (logout shaW secretW 0 [] (str "x")).1 ∧
    getCurrentUser shaW secretW 0 ((logout shaW secretW 0 [] (str "x")).1) [] (str "x") ≠
      .error (str "Token has been invalidated") ∧
    getCurrentUser shaW secretW 0 ((logout shaW secretW 0 [] (str "x")).1) [] (str "x") =
      .error (str "Invalid token format") := by
  refine ⟨rfl, by decide, by decide, by decide⟩

/-- C1 (amended): `logout(t)` always returns `{success: true}`.  When the
token passes verification it is added to the revocation set, and a
subsequent `getCurrentUser(t)` fails with the `TokenInvalidated` error
before signature or expiry are checked.  When the token fails
verification, `logout` leaves the revocation set unchanged (the token is
not added); a `getCurrentUser(t)` on a token that is not in the revocation
set then fails with the verification error itself rather than
`TokenInvalidated` (a token already in the set — e.g. revoked while valid
and since expired — still yields `TokenInvalidated`, because the set is
consulted before verification). -/
theorem claim_C1_logout_amended (shaB64 : Str → Str) (secret : Str) (nowL nowG : Nat)
    (bl : List Str) (users : List User) (t : Str) :
    ((logout shaB64 secret nowL bl t).2 = true) ∧
    (∀ cl, verifyToken shaB64 secret nowL t = .ok cl →
      (logout shaB64 secret nowL bl t).1 = setAdd bl t ∧
      getCurrentUser shaB64 secret nowG (setAdd bl t) users t =
        .error (str "Token has been invalidated")) ∧
    (∀ e, verifyToken shaB64 secret nowL t = .error e →
      (logout shaB64 secret nowL bl t).1 = bl) ∧
    (∀ e, bl.contains t = false →
      verifyToken shaB64 secret nowG t = .error e →
      getCurrentUser shaB64 secret nowG bl users t = .error e) :=
  ⟨(logout_behavior shaB64 secret nowL nowG bl users t).1,
   (logout_behavior shaB64 secret nowL nowG bl users t).2,
   fun e hv => logout_error_keeps shaB64 secret nowL bl t e hv,
   fun e hbl hv => getCurrentUser_propagates shaB64 secret nowG bl users t e hbl hv⟩

/-- C1 witness: the amended claim at a concrete verified token (revoked and
then rejected as invalidated) and at a concrete malformed token (left
unrevoked, with `getCurrentUser` propagating the format error). -/
theorem claim_C1_logout_amended_witness :
    (logout shaW secretW 0 [] tokW).2 = true ∧
    (logout shaW secretW 0 [] tokW).1 = setAdd [] tokW ∧
    getCurrentUser shaW secretW 0 (setAdd [] tokW) [] tokW =
      .error (str "Token has been invalidated") ∧
    (logout shaW secretW 0 [] (str "x")).1 = [] ∧
    getCurrentUser shaW secretW 0 [] [] (str "x") =
      .error (str "Invalid token format") := by
  have h1 := claim_C1_logout_amended shaW secretW 0 0 [] [] tokW
  have h2 := claim_C1_logout_amended shaW secretW 0 0 [] [] (str "x")
  have hv : verifyToken shaW secretW 0 tokW = .ok cW := by decide
  have hx : verifyToken shaW secretW 0 (str "x") = .error (str "Invalid token format") := by
    decide
  exact ⟨h1.1, (h1.2.1 cW hv).1, (h1.2.1 cW hv).2, h2.2.2.1 _ hx,
    h2.2.2.2 _ (by decide) hx⟩

/-- C2: starting from a store whose reports satisfy `resolved_at` non-null
iff status resolved (with unique report ids), any sequence of
`updateReport` calls — successful or failed, each with its own clock
reading — leaves every stored report satisfying the invariant: a change to
resolved stamps `resolved_at = now`, a change away from resolved clears it,
and an update without a status change (or between two non-resolved
statuses) leaves it unchanged. -/
theorem claim_C2_resolved_invariant (db : DB) (steps : List (Nat × UpdateReportInput))
    (h : dbInv db) :
    ∀ r ∈ (steps.foldl stepUpdate db).reports, reportInv r :=
  (foldl_stepUpdate_dbInv steps db h).1

/-- C2 witness: a pending report driven into resolved and back out. -/
theorem claim_C2_resolved_invariant_witness :
    dbInv dbW ∧ (∀ r ∈ (stepsW.foldl stepUpdate dbW).reports, reportInv r) :=
  ⟨by decide, claim_C2_resolved_invariant dbW stepsW (by decide)⟩

/-- C3: the committed `getReports` and `getUserReports` handlers — the live
code the tRPC router dispatches to — are placeholder stubs that return no
rows, so for every filter input and every actor id, every row either list
operation returns carries the actor's own user id, and no row with a
foreign `user_id` is ever returned.  The claim as stated holds of the
program (vacuously, because the returned row set is empty); the scoping
override described by the spec is not implemented in the committed code. -/
theorem claim_C3_scoped_listing (filters : ReportFilters) (f2 : Option ReportFilters)
    (actorUserId : Nat) :
    ((getReports filters).1.all (fun r => r.user_id == actorUserId)) = true ∧
    ((getUserReports actorUserId f2).1.all (fun r => r.user_id == actorUserId)) = true :=
  ⟨rfl, rfl⟩

/-- C4: the committed bulk handlers are placeholders — for every store and
every input they modify no stored report and report the number of supplied
ids as the `updated` / `assigned` count, so whenever a supplied id does not
match a stored report the returned count differs from the number of rows
actually changed (which is always zero). -/
theorem claim_C4_bulk_stub_counts (db : DB) (i1 : BulkUpdateStatusInput)
    (i2 : BulkAssignInput) :
    (bulkUpdateReportStatus db i1).1 = db ∧
    (bulkUpdateReportStatus db i1).2.2 = i1.report_ids.length ∧
    (bulkAssignReports db i2).1 = db ∧
    (bulkAssignReports db i2).2.2 = i2.report_ids.length :=
  ⟨rfl, rfl, rfl, rfl⟩

/-- C5: for every claims triple, verifying the token produced by issuing it
at `now` succeeds at any time up to the 24-hour expiry and returns exactly
the issued claims (the added `iat`/`exp` timestamps are not part of the
returned claims object).  The abstract digest is only assumed to emit no
`'.'` character, which is true of a base64url digest. -/
theorem claim_C5_token_roundtrip (sha : Str → Str) (secret : Str) (c : TokenClaims)
    (now now2 : Nat) (hdot : ∀ x, '.' ∉ sha x) (hexp : now2 ≤ now + 86400) :
    verifyToken sha secret now2 (generateToken sha secret now c) = .ok c :=
  verify_generate sha secret c now now2 hdot hexp

/-- C5 witness: a concrete token verified well before expiry. -/
theorem claim_C5_token_roundtrip_witness :
    verifyToken shaW secretW 100 (generateToken shaW secretW 0 cW) = .ok cW :=
  claim_C5_token_roundtrip shaW secretW cW 0 100 shaW_ne_dot (by omega)

/-- C6: for every issued token and every single-character change to its
payload segment or its signature segment, verification fails with either
the token-format error or the signature error — never succeeding — under
the idealization that the digest is injective (collision-free) and emits
no `'.'` character. -/
theorem claim_C6_tamper_detection (sha : Str → Str) (secret : Str) (c : TokenClaims)
    (now now2 : Nat) (hinj : Function.Injective sha) (hdot : ∀ x, '.' ∉ sha x)
    (t' : Str)
    (ht : (∃ j ch, ∃ hj : j < (tokenPayloadSeg c now).length,
        ch ≠ (tokenPayloadSeg c now).get ⟨j, hj⟩ ∧
        t' = tokenHeader ++ '.' ::
          ((tokenPayloadSeg c now).set j ch ++ '.' :: tokenSig sha secret c now)) ∨
      (∃ k ch, ∃ hk : k < (tokenSig sha secret c now).length,
        ch ≠ (tokenSig sha secret c now).get ⟨k, hk⟩ ∧
        t' = tokenHeader ++ '.' ::
          (tokenPayloadSeg c now ++ '.' :: (tokenSig sha secret c now).set k ch))) :
    verifyToken sha secret now2 t' = .error (str "Invalid token format") ∨
    verifyToken sha secret now2 t' = .error (str "Invalid token signature") := by
  rcases ht with ⟨j, ch, hj, hne, rfl⟩ | ⟨k, ch, hk, hne, rfl⟩
  · exact verify_payload_tampered sha secret c now now2 hinj hdot j ch hj hne
  · exact verify_sig_tampered sha secret c now now2 hdot k ch hk hne

/-- C6 witness: the first payload character flipped to `'Z'` under the
injective dot-free digest. -/
theorem claim_C6_tamper_detection_witness :
    verifyToken shaInj secretW 0 tampW = .error (str "Invalid token format") ∨
    verifyToken shaInj secretW 0 tampW = .error (str "Invalid token signature") :=
  claim_C6_tamper_detection shaInj secretW cW 0 0 shaInj_injective shaInj_ne_dot tampW
    (Or.inl ⟨0, 'Z', by decide, by decide, rfl⟩)

/-- C7: for an existing report and an update whose `sub_menu_id` is present
and resolves to an active sub-menu (and whose `menu_id`, when present,
passed its own validity check), `updateReport` fails with the
category-mismatch error exactly when that sub-menu's owning menu differs
from the effective menu id (the incoming `menu_id` if present, else the
report's current one); when they are equal that check passes and the
category-mismatch error cannot be the outcome. -/
theorem claim_C7_category_mismatch (now : Nat) (db : DB) (inp : UpdateReportInput)
    (existing : Report) (rest : List Report) (sm : Nat) (s : SubMenu) (srest : List SubMenu)
    (hf : findReport db inp.id = existing :: rest)
    (hsm : inp.sub_menu_id = some sm)
    (hfind : findActiveSubMenu db sm = s :: srest)
    (hmenu : ∀ m, inp.menu_id = some m → (findActiveMenu db m).isEmpty = false) :
    (s.menu_id ≠ effMenuId inp existing →
      (updateReport now db inp).2 =
        .error (str "Sub menu does not belong to the selected menu")) ∧
    (s.menu_id = effMenuId inp existing →
      (updateReport now db inp).2 ≠
        .error (str "Sub menu does not belong to the selected menu")) :=
  updateReport_category now db inp existing rest sm s srest hf hsm hfind hmenu

/-- C7 witness: moving a report in menu 1 onto menu 2's sub-menu fails
with the category-mismatch error. -/
theorem claim_C7_category_mismatch_witness :
    (updateReport 7 dbW7 inpW7).2 =
      .error (str "Sub menu does not belong to the selected menu") :=
  (claim_C7_category_mismatch 7 dbW7 inpW7 reportW [] 5 ⟨5, 2, str "s2", true⟩ []
    (by decide) rfl (by decide) (fun m hm => by simp [inpW7] at hm)).1 (by decide)

/-- C8: password verification succeeds on the stored string produced by
hashing (for any colon-free salt, as the random hex salts are), and two
hashes of the same password under distinct salts are distinct strings that
both verify.  The abstract hex digest is only assumed colon-free. -/
theorem claim_C8_hash_roundtrip (shaHex : Str → Str) (hcolon : ∀ x, ':' ∉ shaHex x)
    (salt1 salt2 p : Str) (hs1 : ':' ∉ salt1) (hs2 : ':' ∉ salt2) (hne : salt1 ≠ salt2) :
    verifyPassword shaHex p (hashPassword shaHex salt1 p) = true ∧
    verifyPassword shaHex p (hashPassword shaHex salt2 p) = true ∧
    hashPassword shaHex salt1 p ≠ hashPassword shaHex salt2 p :=
  hash_verify_roundtrip shaHex hcolon salt1 salt2 p hs1 hs2 hne

/-- C8 witness: two concrete distinct salts for one password. -/
theorem claim_C8_hash_roundtrip_witness :
    verifyPassword shaHexW (str "pw") (hashPassword shaHexW (str "00") (str "pw")) = true ∧
    verifyPassword shaHexW (str "pw") (hashPassword shaHexW (str "01") (str "pw")) = true ∧
    hashPassword shaHexW (str "00") (str "pw") ≠ hashPassword shaHexW (str "01") (str "pw") :=
  claim_C8_hash_roundtrip shaHexW shaHexW_ne_colon (str "00") (str "01") (str "pw")
    (by decide) (by decide) (by decide)

/-- C9: `login` yields the identical `Invalid username or password` error
both when no user matches the username and when the first matching user is
active but the password fails verification, so the error does not reveal
which field was wrong. -/
theorem claim_C9_login_error_collapse (shaHex shaB64 : Str → Str) (secret : Str)
    (now : Nat) (users : List User) (uname pw : Str) :
    ((users.filter (fun u => u.username == uname) = []) →
      (login shaHex shaB64 secret now users uname pw).2 =
        .error (str "Invalid username or password")) ∧
    (∀ u rest, users.filter (fun u => u.username == uname) = u :: rest →
      u.is_active = true →
      verifyPassword shaHex pw u.password_hash = false →
      (login shaHex shaB64 secret now users uname pw).2 =
        .error (str "Invalid username or password")) :=
  login_invalid_credentials shaHex shaB64 secret now users uname pw

/-- C9 witness: an unknown username and a wrong password for an active
user produce the same error value. -/
theorem claim_C9_login_error_collapse_witness :
    (login shaHexW shaW secretW 0 [] (str "ghost") (str "pw")).2 =
      .error (str "Invalid username or password") ∧
    (login shaHexW shaW secretW 0 [userW] (str "alice") (str "pw")).2 =
      .error (str "Invalid username or password") :=
  ⟨(claim_C9_login_error_collapse shaHexW shaW secretW 0 [] (str "ghost") (str "pw")).1
      (by decide),
   (claim_C9_login_error_collapse shaHexW shaW secretW 0 [userW] (str "alice")
      (str "pw")).2 userW [] (by decide) (by decide) (by decide)⟩

/-- C10: `updateReport` is atomic on validation failure — whenever it
returns any error, the store is unchanged, because every validation check
precedes the single update statement. -/
theorem claim_C10_update_atomic (now : Nat) (db : DB) (inp : UpdateReportInput) (e : Str)
    (h : (updateReport now db inp).2 = .error e) : (updateReport now db inp).1 = db :=
  updateReport_atomic now db inp e h

/-- C10 witness: the not-found failure on an empty store changes nothing. -/
theorem claim_C10_update_atomic_witness :
    (updateReport 0 dbEmpty { id := 1 }).1 = dbEmpty :=
  claim_C10_update_atomic 0 dbEmpty { id := 1 } (str "Report not found") (by decide)

end BR
